import Mathlib

/-!
# Verification development for the switched-model gait receiver and motion tracking cost

Shallow embedding of

* `ocs2_switched_model_interface/src/logic/GaitReceiver.cpp`
* `ocs2_switched_model_interface/src/cost/MotionTrackingCost.cpp`

Scalars of the receiver are rationals (exact arithmetic); the cost is generic over a
linearly ordered field.  The gait schedule itself (`GaitSchedule`, `LockableGaitSchedule`)
is not part of the translated sources: its three mutators are taken as parameters
(`GaitScheduleOps`) over an arbitrary schedule state type.
-/

namespace switched_model

/-! ## Data model of the receiver -/

/-- Gait: duration, event phases and mode sequence (`Gait.h`, a plain struct). -/
structure Gait where
  duration : ℚ
  eventPhases : List ℚ
  modeSequence : List Nat
  deriving DecidableEq

/-- Parsed mode-sequence template, the value `readModeSequenceTemplateMsg` hands to the
two mode-sequence handlers. -/
structure ModeSequenceTemplate where
  switchingTimes : List ℚ
  modeSequence : List Nat
  deriving DecidableEq

/-- Ways in which a call can fail to return normally.  `assertionFailed` is the abort of a
failed `assert` (only in builds that keep assertions), `outOfRange` is an `operator[]` read
past the end of a `std::vector` (undefined behaviour in C++, the model stops there),
`badFunctionCall` is the invocation of an empty `std::function`, the remaining two are
C++ exceptions a schedule operation may throw. -/
inductive Fault where
  | invalidArgument
  | runtimeError
  | assertionFailed
  | outOfRange
  | badFunctionCall
  deriving DecidableEq

/-- Result of running code against a schedule: the schedule as the call left it (also when
it failed: C++ does not roll back) and the failure that left the call, if any. -/
structure Outcome (S : Type) where
  sched : S
  fault : Option Fault
  deriving DecidableEq

/-- The three mutators of `GaitSchedule` the receiver calls through `gaitSchedulePtr_`.
Their bodies live outside the translated sources, so they are parameters. -/
structure GaitScheduleOps (S : Type) where
  setGaitAfterTime : Gait → ℚ → S → Outcome S
  setGaitAtTime : Gait → ℚ → S → Outcome S
  setGaitSequenceAtTime : List Gait → ℚ → S → Outcome S

/-- Time-interpolated reference provider (`ocs2::CostDesiredTrajectories`), seen through
the two queries the translated code uses. -/
structure CostDesiredTrajectories (K : Type) where
  getDesiredState : K → List K
  getDesiredInput : K → List K

/-- Arguments of `preSolverRun`, forwarded unchanged to the buffered action. -/
structure SolverArgs where
  initTime : ℚ
  finalTime : ℚ
  currentState : List ℚ
  costDesiredTrajectory : CostDesiredTrajectories ℚ

/-- Type of `setGaitAction_`: a `std::function` taking the solver arguments and acting on
the schedule behind `gaitSchedulePtr_`. -/
abbrev GaitAction (S : Type) := SolverArgs → S → Outcome S

/-- Members of `GaitReceiver` that carry state: the buffered action and the flag. -/
structure GaitReceiver (S : Type) where
  setGaitAction_ : GaitAction S
  gaitUpdated_ : Bool

/-- A default-constructed `std::function`: invoking it throws `std::bad_function_call`. -/
def emptyFunction {S : Type} : GaitAction S :=
  fun _ s => ⟨s, some Fault.badFunctionCall⟩

/-- Constructor `GaitReceiver::GaitReceiver`: `setGaitAction_` default-constructed,
`gaitUpdated_(false)`. -/
def GaitReceiver.new {S : Type} : GaitReceiver S :=
  { setGaitAction_ := emptyFunction, gaitUpdated_ := false }

/-- Method `GaitReceiver::preSolverRun` (lines 22-33).  When the flag is set the buffered
action runs on the schedule; the flag is cleared by the statement after the guarded block,
which is reached only if the action returned normally. -/
def preSolverRun {S : Type} (r : GaitReceiver S) (args : SolverArgs) (sched : S) :
    GaitReceiver S × Outcome S :=
  if r.gaitUpdated_ then
    match r.setGaitAction_ args sched with
    | ⟨s, none⟩ => ({ r with gaitUpdated_ := false }, ⟨s, none⟩)
    | ⟨s, some f⟩ => (r, ⟨s, some f⟩)
  else
    (r, ⟨sched, none⟩)

/-- Lines 37-43 and 57-65: the gait both mode-sequence handlers build from the template.
`back()` of an empty vector and a range `[begin()+1, end()-1)` of a vector with fewer than
two entries are undefined in C++; the model yields duration `0` and no event there. -/
def gaitOfTemplate (tpl : ModeSequenceTemplate) : Gait :=
  let duration := tpl.switchingTimes.getLastD 0
  { duration := duration
    eventPhases := tpl.switchingTimes.tail.dropLast.map (fun eventTime => eventTime / duration)
    modeSequence := tpl.modeSequence }

/-- Lambda of lines 46-50: `gaitSchedulePtr_->setGaitAfterTime(gait, finalTime)`. -/
def modeSequenceAction {S : Type} (ops : GaitScheduleOps S) (gait : Gait) : GaitAction S :=
  fun args s => ops.setGaitAfterTime gait args.finalTime s

/-- Lambda of lines 68-73:
`gaitSchedulePtr_->setGaitAtTime(gait, modeSequenceTemplate.switchingTimes.front())`. -/
def scheduledGaitAction {S : Type} (ops : GaitScheduleOps S) (tpl : ModeSequenceTemplate)
    (gait : Gait) : GaitAction S :=
  fun _ s => ops.setGaitAtTime gait (tpl.switchingTimes.headD 0) s

/-- Loop of lines 91-93, from index `i` on, over the gaits not yet visited:
`setGaitSequenceAtTime({gaitSequence[i]}, startTimes[i])` for `i < gaitSequence.size()`.
A failing call ends the loop (the exception leaves the lambda). -/
def gaitSequenceLoop {S : Type} (ops : GaitScheduleOps S) (startTimes : List ℚ) :
    List Gait → Nat → S → Outcome S
  | [], _, s => ⟨s, none⟩
  | g :: rest, i, s =>
    match startTimes[i]? with
    | none => ⟨s, some Fault.outOfRange⟩
    | some t =>
      match ops.setGaitSequenceAtTime [g] t s with
      | ⟨s1, none⟩ => gaitSequenceLoop ops startTimes rest (i + 1) s1
      | ⟨s1, some f⟩ => ⟨s1, some f⟩

/-- Lambda of lines 86-94.  `assertions` tells whether `assert` is compiled in (no
`NDEBUG`); a failed assertion aborts before the loop. -/
def gaitSequenceAction {S : Type} (ops : GaitScheduleOps S) (assertions : Bool)
    (gaitSequence : List Gait) (startTimes : List ℚ) : GaitAction S :=
  fun _ s =>
    if assertions && !(gaitSequence.length == startTimes.length) then
      ⟨s, some Fault.assertionFailed⟩
    else
      gaitSequenceLoop ops startTimes gaitSequence 0 s

/-- Handler `GaitReceiver::mpcModeSequenceCallback` (lines 35-52). -/
def mpcModeSequenceCallback {S : Type} (ops : GaitScheduleOps S) (_r : GaitReceiver S)
    (msg : ModeSequenceTemplate) : GaitReceiver S :=
  { setGaitAction_ := modeSequenceAction ops (gaitOfTemplate msg), gaitUpdated_ := true }

/-- Handler `GaitReceiver::mpcModeScheduledGaitCallback` (lines 54-75). -/
def mpcModeScheduledGaitCallback {S : Type} (ops : GaitScheduleOps S) (_r : GaitReceiver S)
    (msg : ModeSequenceTemplate) : GaitReceiver S :=
  { setGaitAction_ := scheduledGaitAction ops msg (gaitOfTemplate msg), gaitUpdated_ := true }

/-- Handler `GaitReceiver::mpcGaitSequenceCallback` (lines 77-97). -/
def mpcGaitSequenceCallback {S : Type} (ops : GaitScheduleOps S) (assertions : Bool)
    (_r : GaitReceiver S) (gaitSequence : List Gait) (startTimes : List ℚ) : GaitReceiver S :=
  { setGaitAction_ := gaitSequenceAction ops assertions gaitSequence startTimes
    gaitUpdated_ := true }

/-- An inbound command: which topic it arrived on and its parsed payload. -/
inductive Command where
  | modeSequence (msg : ModeSequenceTemplate)
  | scheduledGait (msg : ModeSequenceTemplate)
  | gaitSequence (gaitSequence : List Gait) (startTimes : List ℚ)
  deriving DecidableEq

/-- Dispatch of a command to the handler subscribed to its topic (constructor, lines
14-19). -/
def handleCommand {S : Type} (ops : GaitScheduleOps S) (assertions : Bool)
    (r : GaitReceiver S) : Command → GaitReceiver S
  | .modeSequence msg => mpcModeSequenceCallback ops r msg
  | .scheduledGait msg => mpcModeScheduledGaitCallback ops r msg
  | .gaitSequence gs ts => mpcGaitSequenceCallback ops assertions r gs ts

/-- The action a command stands for: the lambda its handler builds. -/
def commandAction {S : Type} (ops : GaitScheduleOps S) (assertions : Bool) :
    Command → GaitAction S
  | .modeSequence msg => modeSequenceAction ops (gaitOfTemplate msg)
  | .scheduledGait msg => scheduledGaitAction ops msg (gaitOfTemplate msg)
  | .gaitSequence gs ts => gaitSequenceAction ops assertions gs ts

/-! ### A recording schedule

Instance of the schedule parameters that keeps the list of mutator calls it received, in
order.  It is the observer used to state in which order an action touches the schedule. -/

/-- One call on the schedule. -/
inductive ScheduleCall where
  | setGaitAfterTime (gait : Gait) (time : ℚ)
  | setGaitAtTime (gait : Gait) (time : ℚ)
  | setGaitSequenceAtTime (gaitSequence : List Gait) (time : ℚ)
  deriving DecidableEq

/-- Schedule operations that append every call to a log and never fail. -/
def recordingOps : GaitScheduleOps (List ScheduleCall) where
  setGaitAfterTime g t log := ⟨log ++ [ScheduleCall.setGaitAfterTime g t], none⟩
  setGaitAtTime g t log := ⟨log ++ [ScheduleCall.setGaitAtTime g t], none⟩
  setGaitSequenceAtTime gs t log := ⟨log ++ [ScheduleCall.setGaitSequenceAtTime gs t], none⟩

/-- Schedule operations that record the call and then throw `InvalidArgument`. -/
def rejectingOps : GaitScheduleOps (List ScheduleCall) where
  setGaitAfterTime g t log :=
    ⟨log ++ [ScheduleCall.setGaitAfterTime g t], some Fault.invalidArgument⟩
  setGaitAtTime g t log :=
    ⟨log ++ [ScheduleCall.setGaitAtTime g t], some Fault.invalidArgument⟩
  setGaitSequenceAtTime gs t log :=
    ⟨log ++ [ScheduleCall.setGaitSequenceAtTime gs t], some Fault.invalidArgument⟩

/-- Start time of a recorded call. -/
def ScheduleCall.time : ScheduleCall → ℚ
  | .setGaitAfterTime _ t => t
  | .setGaitAtTime _ t => t
  | .setGaitSequenceAtTime _ t => t

/-- Sample gaits and solver arguments for the concrete evaluations. -/
def standGait : Gait := { duration := 1, eventPhases := [], modeSequence := [15] }

/-- A two-phase sample gait. -/
def trotGait : Gait := { duration := 2, eventPhases := [1 / 2], modeSequence := [9, 6] }

/-- Sample solver arguments. -/
def sampleArgs : SolverArgs :=
  { initTime := 0, finalTime := 1, currentState := [],
    costDesiredTrajectory := { getDesiredState := fun _ => [], getDesiredInput := fun _ => [] } }

/-- Apply (gait, start time) pairs to the schedule one after the other in list order, each
as a singleton sequence, stopping at the first call that fails. -/
def applyPairsInOrder {S : Type} (ops : GaitScheduleOps S) : List (Gait × ℚ) → S → Outcome S
  | [], s => ⟨s, none⟩
  | (g, t) :: rest, s =>
    match ops.setGaitSequenceAtTime [g] t s with
    | ⟨s1, none⟩ => applyPairsInOrder ops rest s1
    | ⟨s1, some f⟩ => ⟨s1, some f⟩

/-! ### Synchronisation skeleton of the receiver

The lock and shared-variable events each function performs, in program order. -/

/-- Events on the receiver's shared members and on the two locks. -/
inductive SyncEvent where
  | lockReceived
  | unlockReceived
  | lockSchedule
  | unlockSchedule
  | readUpdated
  | writeUpdated
  | writeAction
  | callAction
  deriving DecidableEq

/-- Events of `preSolverRun` (lines 24-32): the flag is read by the `if`, then
`receivedGaitMutex_` and the schedule are locked, the action is called, the schedule guard
ends, the flag is cleared (skipped when the action throws) and the outer guard ends. -/
def preSolverRunEvents (updated actionThrows : Bool) : List SyncEvent :=
  SyncEvent.readUpdated ::
    (if updated then
      [SyncEvent.lockReceived, SyncEvent.lockSchedule, SyncEvent.callAction,
        SyncEvent.unlockSchedule] ++
      (if actionThrows then [] else [SyncEvent.writeUpdated]) ++ [SyncEvent.unlockReceived]
    else [])

/-- Events of `mpcModeSequenceCallback` (lines 45-52). -/
def mpcModeSequenceCallbackEvents : List SyncEvent :=
  [SyncEvent.lockReceived, SyncEvent.writeAction, SyncEvent.writeUpdated,
    SyncEvent.unlockReceived]

/-- Events of `mpcModeScheduledGaitCallback` (lines 68-75): no guard is constructed. -/
def mpcModeScheduledGaitCallbackEvents : List SyncEvent :=
  [SyncEvent.writeAction, SyncEvent.writeUpdated]

/-- Events of `mpcGaitSequenceCallback` (lines 84-96). -/
def mpcGaitSequenceCallbackEvents : List SyncEvent :=
  [SyncEvent.lockReceived, SyncEvent.writeAction, SyncEvent.writeUpdated,
    SyncEvent.unlockReceived]

/-- Events of the handler a command is dispatched to. -/
def handlerEvents : Command → List SyncEvent
  | .modeSequence _ => mpcModeSequenceCallbackEvents
  | .scheduledGait _ => mpcModeScheduledGaitCallbackEvents
  | .gaitSequence _ _ => mpcGaitSequenceCallbackEvents

/-- Whether an event touches `setGaitAction_` or `gaitUpdated_`. -/
def SyncEvent.touchesShared : SyncEvent → Bool
  | .readUpdated => true
  | .writeUpdated => true
  | .writeAction => true
  | .callAction => true
  | _ => false

/-- Lock discipline of one thread: walking its events with `held` telling whether it owns
`receivedGaitMutex_`, every access to the shared members happens while it is owned. -/
def accessesGuarded : Bool → List SyncEvent → Bool
  | _, [] => true
  | _, SyncEvent.lockReceived :: rest => accessesGuarded true rest
  | _, SyncEvent.unlockReceived :: rest => accessesGuarded false rest
  | held, e :: rest => (!e.touchesShared || held) && accessesGuarded held rest

/-- Locks are released on exit: walking the events, both locks are free at the end. -/
def locksReleased : Bool → Bool → List SyncEvent → Bool
  | heldR, heldS, [] => !heldR && !heldS
  | _, heldS, SyncEvent.lockReceived :: rest => locksReleased true heldS rest
  | _, heldS, SyncEvent.unlockReceived :: rest => locksReleased false heldS rest
  | heldR, _, SyncEvent.lockSchedule :: rest => locksReleased heldR true rest
  | heldR, _, SyncEvent.unlockSchedule :: rest => locksReleased heldR false rest
  | heldR, heldS, _ :: rest => locksReleased heldR heldS rest

/-- Two threads, the control thread and one producer. -/
inductive ThreadId where
  | control
  | producer
  deriving DecidableEq

/-- An interleaving respects the mutex: `owner` is the thread holding
`receivedGaitMutex_`; a thread locks only a free mutex and unlocks only its own. -/
def mutexRespected : Option ThreadId → List (ThreadId × SyncEvent) → Bool
  | _, [] => true
  | owner, (t, SyncEvent.lockReceived) :: rest =>
    owner.isNone && mutexRespected (some t) rest
  | owner, (t, SyncEvent.unlockReceived) :: rest =>
    (owner == some t) && mutexRespected none rest
  | owner, _ :: rest => mutexRespected owner rest

/-- Some thread writes the buffered action while another thread is inside its own critical
section on `receivedGaitMutex_`. -/
def writesInsideForeignSection : Option ThreadId → List (ThreadId × SyncEvent) → Bool
  | _, [] => false
  | _, (t, SyncEvent.lockReceived) :: rest => writesInsideForeignSection (some t) rest
  | _, (_, SyncEvent.unlockReceived) :: rest => writesInsideForeignSection none rest
  | owner, (t, SyncEvent.writeAction) :: rest =>
    (owner.isSome && owner != some t) || writesInsideForeignSection owner rest
  | owner, _ :: rest => writesInsideForeignSection owner rest

/-- The events of one thread inside an interleaving, in order. -/
def eventsOf (t : ThreadId) (run : List (ThreadId × SyncEvent)) : List SyncEvent :=
  (run.filter (fun e => e.1 == t)).map Prod.snd

/-- A run in which the scheduled-gait handler stores its action while the control thread
is calling the previously buffered one. -/
def racingRun : List (ThreadId × SyncEvent) :=
  [(ThreadId.control, SyncEvent.readUpdated), (ThreadId.control, SyncEvent.lockReceived),
    (ThreadId.control, SyncEvent.lockSchedule), (ThreadId.producer, SyncEvent.writeAction),
    (ThreadId.control, SyncEvent.callAction), (ThreadId.producer, SyncEvent.writeUpdated),
    (ThreadId.control, SyncEvent.unlockSchedule), (ThreadId.control, SyncEvent.writeUpdated),
    (ThreadId.control, SyncEvent.unlockReceived)]

/-! ## Motion tracking cost -/

section Cost

variable {K : Type}

/-- Fixed-size 3-vector (`vector3_s_t`). -/
structure Vec3 (K : Type) where
  x : K
  y : K
  z : K
  deriving DecidableEq

/-- Coefficients of a 3-vector in storage order. -/
def Vec3.toList (v : Vec3 K) : List K := [v.x, v.y, v.z]

/-- Coefficient-wise image of a 3-vector (`cwiseSqrt`, `cast`). -/
def Vec3.map (f : K → K) (v : Vec3 K) : Vec3 K := ⟨f v.x, f v.y, f v.z⟩

/-- Zero 3-vector (`vector3_s_t::Zero()`). -/
def Vec3.zero [Zero K] : Vec3 K := ⟨0, 0, 0⟩

/-- A 3x3 matrix given by its rows. -/
structure Mat3 (K : Type) where
  row0 : Vec3 K
  row1 : Vec3 K
  row2 : Vec3 K

/-- Dot product of two 3-vectors. -/
def Vec3.dot [Add K] [Mul K] (a b : Vec3 K) : K := a.x * b.x + a.y * b.y + a.z * b.z

/-- Matrix-vector product `o_R_b * v`. -/
def Mat3.mulVec [Add K] [Mul K] (m : Mat3 K) (v : Vec3 K) : Vec3 K :=
  ⟨m.row0.dot v, m.row1.dot v, m.row2.dot v⟩

/-- Read `v.segment<3>(start)`; the fixed dimensions of the C++ types keep the three
indices in range, a list too short reads `0` there. -/
def segment3 [Zero K] (v : List K) (start : Nat) : Vec3 K :=
  ⟨v.getD start 0, v.getD (start + 1) 0, v.getD (start + 2) 0⟩

/-- Constant `baseTargets` (line 17). -/
def baseTargets : Nat := 12

/-- Constant `legTargets` (line 18). -/
def legTargets : Nat := 12

/-- Constant `costVectorLength` (line 19); `numContactPoints` is `NUM_CONTACT_POINTS`,
defined in a header outside the translated sources. -/
def costVectorLength (numContactPoints : Nat) : Nat :=
  baseTargets + numContactPoints * legTargets

/-- Struct `CostElements` (lines 21-32); a `feet_array_t` is indexed by the leg. -/
structure CostElements (K : Type) (n : Nat) where
  eulerXYZ : Vec3 K
  comPosition : Vec3 K
  comAngularVelocity : Vec3 K
  comLinearVelocity : Vec3 K
  jointPosition : Fin n → Vec3 K
  footPosition : Fin n → Vec3 K
  footVelocity : Fin n → Vec3 K
  contactForce : Fin n → Vec3 K

/-- Default member initialisers of `CostElements`: every field zero. -/
def CostElements.default [Zero K] {n : Nat} : CostElements K n :=
  { eulerXYZ := Vec3.zero, comPosition := Vec3.zero, comAngularVelocity := Vec3.zero,
    comLinearVelocity := Vec3.zero, jointPosition := fun _ => Vec3.zero,
    footPosition := fun _ => Vec3.zero, footVelocity := fun _ => Vec3.zero,
    contactForce := fun _ => Vec3.zero }

/-- Writes of a comma initialiser `v.segment(start, ..) << b0, b1, ..`: the coefficients of
the blocks go to consecutive indices from `start`; each pair is (index, value). -/
def commaWrites (start : Nat) (blocks : List (Vec3 K)) : List (Nat × K) :=
  (blocks.flatMap Vec3.toList).enumFrom start

/-- All coefficient writes of `costElementsToVector` (lines 39-45), in program order. -/
def costElementsWrites {n : Nat} (asStruct : CostElements K n) : List (Nat × K) :=
  commaWrites 0 [asStruct.eulerXYZ, asStruct.comPosition, asStruct.comAngularVelocity,
      asStruct.comLinearVelocity] ++
    (List.finRange n).flatMap (fun leg =>
      commaWrites (baseTargets + leg.val * legTargets)
        [asStruct.jointPosition leg, asStruct.footPosition leg, asStruct.footVelocity leg,
          asStruct.contactForce leg])

/-- Perform coefficient writes on a vector, in order. -/
def applyWrites (v : List K) (writes : List (Nat × K)) : List K :=
  writes.foldl (fun acc w => acc.set w.1 w.2) v

/-- Body of `costElementsToVector` after the allocation `v(costVectorLength)`: `v0` is the
content of the freshly allocated vector, which Eigen leaves unspecified. -/
def costElementsAssign {n : Nat} (v0 : List K) (asStruct : CostElements K n) : List K :=
  applyWrites v0 (costElementsWrites asStruct)

/-- Function `costElementsToVector` (lines 34-47), with the fresh vector read as zeros. -/
def costElementsToVector [Zero K] {n : Nat} (asStruct : CostElements K n) : List K :=
  costElementsAssign (List.replicate (costVectorLength n) 0) asStruct

/-- State and input accessors of `SwitchedModel.h` and `Rotations.h`, which are outside
the translated sources: parameters of the cost. -/
structure ComKinoAccess (K : Type) where
  getComPose : List K → List K
  getComLocalVelocities : List K → List K
  getOrientation : List K → Vec3 K
  getPositionInOrigin : List K → Vec3 K
  getAngularVelocity : List K → Vec3 K
  getLinearVelocity : List K → Vec3 K
  rotationMatrixBaseToOrigin : Vec3 K → Mat3 K
  getJointPositions : List K → List K
  getJointVelocities : List K → List K

/-- Kinematics capability `KinematicsModelBase`: foot position and velocity per leg. -/
structure KinematicsModelBase (K : Type) (n : Nat) where
  positionBaseToFootInBaseFrame : Fin n → List K → Vec3 K
  footVelocityRelativeToBaseInBaseFrame : Fin n → List K → List K → Vec3 K

/-- Struct built inside `computeMotionTargets` (lines 53-69). -/
def motionTarget [Zero K] [Add K] [Mul K] {n : Nat} (acc : ComKinoAccess K)
    (x u : List K) (kinematics : KinematicsModelBase K n) : CostElements K n :=
  let comPose := acc.getComPose x
  let com_comTwist := acc.getComLocalVelocities x
  let o_R_b := acc.rotationMatrixBaseToOrigin (acc.getOrientation comPose)
  let qJoints := acc.getJointPositions x
  let dqJoints := acc.getJointVelocities u
  { eulerXYZ := acc.getOrientation comPose
    comPosition := acc.getPositionInOrigin comPose
    comAngularVelocity := o_R_b.mulVec (acc.getAngularVelocity com_comTwist)
    comLinearVelocity := o_R_b.mulVec (acc.getLinearVelocity com_comTwist)
    jointPosition := fun leg => segment3 qJoints (3 * leg.val)
    footPosition := fun leg => kinematics.positionBaseToFootInBaseFrame leg qJoints
    footVelocity := fun leg =>
      kinematics.footVelocityRelativeToBaseInBaseFrame leg qJoints dqJoints
    contactForce := fun leg => segment3 u (3 * leg.val) }

/-- Function `computeMotionTargets` (lines 49-71). -/
def computeMotionTargets [Zero K] [Add K] [Mul K] {n : Nat} (acc : ComKinoAccess K)
    (x u : List K) (kinematics : KinematicsModelBase K n) : List K :=
  costElementsToVector (motionTarget acc x u kinematics)

/-- Struct `MotionTrackingCost::Weights`: one 3-vector of weights per field. -/
structure Weights (K : Type) where
  eulerXYZ : Vec3 K
  comPosition : Vec3 K
  comAngularVelocity : Vec3 K
  comLinearVelocity : Vec3 K
  jointPosition : Vec3 K
  footPosition : Vec3 K
  footVelocity : Vec3 K
  contactForce : Vec3 K

/-- Members of `MotionTrackingCost`.  `getContactFlags` is the query of the mode schedule
manager, `weightCompensatingInputs` the external capability applied to `*comModelPtr_`. -/
structure MotionTrackingCost (K : Type) (n : Nat) where
  sqrtWeights_ : List K
  getContactFlags : K → Fin n → Bool
  kinematicModel : KinematicsModelBase K n
  adKinematicModel : KinematicsModelBase K n
  weightCompensatingInputs : (Fin n → Bool) → Vec3 K → List K
  access : ComKinoAccess K

/-- The struct a weight setting is spread into, every leg receiving the same per-leg
weights, each coefficient sent through `f` (lines 83-93 with `f` the square root). -/
def weightStruct {n : Nat} (f : K → K) (settings : Weights K) : CostElements K n :=
  { eulerXYZ := settings.eulerXYZ.map f
    comPosition := settings.comPosition.map f
    comAngularVelocity := settings.comAngularVelocity.map f
    comLinearVelocity := settings.comLinearVelocity.map f
    jointPosition := fun _ => settings.jointPosition.map f
    footPosition := fun _ => settings.footPosition.map f
    footVelocity := fun _ => settings.footVelocity.map f
    contactForce := fun _ => settings.contactForce.map f }

/-- Constructor `MotionTrackingCost::MotionTrackingCost` (lines 75-97); `sqrt` is the scalar
square root behind `cwiseSqrt`. -/
def MotionTrackingCost.new [Zero K] {n : Nat} (sqrt : K → K) (settings : Weights K)
    (getContactFlags : K → Fin n → Bool) (kinematicModel adKinematicModel : KinematicsModelBase K n)
    (weightCompensatingInputs : (Fin n → Bool) → Vec3 K → List K) (access : ComKinoAccess K) :
    MotionTrackingCost K n :=
  { sqrtWeights_ := costElementsToVector (weightStruct sqrt settings : CostElements K n)
    getContactFlags := getContactFlags
    kinematicModel := kinematicModel
    adKinematicModel := adKinematicModel
    weightCompensatingInputs := weightCompensatingInputs
    access := access }

/-- Eigen `NumTraits<double>::dummy_precision()`, the default argument of `isZero`. -/
def dummy_precision [LinearOrderedField K] : K := 1 / 1000000000000

/-- Eigen `DenseBase::isZero(prec)`: every coefficient `c` has `abs(c) <= abs(1) * prec`. -/
def isZero [LinearOrderedField K] (v : List K) : Bool :=
  v.all (fun c => decide (|c| ≤ |(1 : K)| * dummy_precision))

/-- The local `uRef` of `getParameters` after the `if` (lines 102-109). -/
def referenceInput [LinearOrderedField K] {n : Nat} (c : MotionTrackingCost K n) (time : K)
    (desiredTrajectory : CostDesiredTrajectories K) : List K :=
  let xRef := desiredTrajectory.getDesiredState time
  let uRef := desiredTrajectory.getDesiredInput time
  if isZero uRef then
    let contactFlags := c.getContactFlags time
    c.weightCompensatingInputs contactFlags (c.access.getOrientation (c.access.getComPose xRef))
  else
    uRef

/-- Method `MotionTrackingCost::getParameters` (lines 99-113). -/
def getParameters [LinearOrderedField K] {n : Nat} (c : MotionTrackingCost K n) (time : K)
    (desiredTrajectory : CostDesiredTrajectories K) : List K :=
  computeMotionTargets c.access (desiredTrajectory.getDesiredState time)
    (referenceInput c time desiredTrajectory) c.kinematicModel

/-- Coefficient-wise difference of two dynamic vectors. -/
def vsub [Sub K] (a b : List K) : List K := List.zipWith (fun p q => p - q) a b

/-- Coefficient-wise product of two dynamic vectors (`cwiseProduct`). -/
def cwiseProduct [Mul K] (a b : List K) : List K := List.zipWith (fun p q => p * q) a b

/-- Method `MotionTrackingCost::costVectorFunction` (lines 123-127). -/
def costVectorFunction [LinearOrderedField K] {n : Nat} (c : MotionTrackingCost K n)
    (_time : K) (state input parameters : List K) : List K :=
  let currentTargets := computeMotionTargets c.access state input c.adKinematicModel
  cwiseProduct (vsub currentTargets parameters) c.sqrtWeights_

/-- The flattened field order, written as one concatenation: base fields, then for each leg
in index order joint position, foot position, foot velocity, contact force. -/
def fieldLayout {n : Nat} (a : CostElements K n) : List K :=
  a.eulerXYZ.toList ++ a.comPosition.toList ++ a.comAngularVelocity.toList ++
    a.comLinearVelocity.toList ++
    (List.finRange n).flatMap (fun leg =>
      (a.jointPosition leg).toList ++ (a.footPosition leg).toList ++
        (a.footVelocity leg).toList ++ (a.contactForce leg).toList)

/-- The three contact-force coefficients of a leg inside a flattened cost vector: offset 9
of the leg's stretch of twelve. -/
def contactForceBlock (v : List K) (leg : Nat) : List K :=
  (v.drop (baseTargets + leg * legTargets + 9)).take 3

/-- Sample accessors for the concrete evaluations: orientation and position read from the
pose, velocities from the twist, identity rotation. -/
def sampleAccess [LinearOrderedField K] : ComKinoAccess K where
  getComPose x := x.take 6
  getComLocalVelocities x := (x.drop 6).take 6
  getOrientation p := segment3 p 0
  getPositionInOrigin p := segment3 p 3
  getAngularVelocity w := segment3 w 0
  getLinearVelocity w := segment3 w 3
  rotationMatrixBaseToOrigin _ := ⟨⟨1, 0, 0⟩, ⟨0, 1, 0⟩, ⟨0, 0, 1⟩⟩
  getJointPositions x := x.drop 12
  getJointVelocities u := u.drop 3

/-- Sample kinematics of a one-legged model. -/
def sampleKinematics [LinearOrderedField K] : KinematicsModelBase K 1 where
  positionBaseToFootInBaseFrame _ q := segment3 q 0
  footVelocityRelativeToBaseInBaseFrame _ _ dq := segment3 dq 0

/-- Sample weight compensation of a one-legged model: the stance leg carries 100 along
z, a swing leg carries nothing. -/
def sampleCompensation [LinearOrderedField K] (contactFlags : Fin 1 → Bool)
    (_orientation : Vec3 K) : List K :=
  if contactFlags 0 then [0, 0, 100, 0, 0, 0] else [0, 0, 0, 0, 0, 0]

/-- Sample weights, all equal to one. -/
def unitWeights [LinearOrderedField K] : Weights K :=
  { eulerXYZ := ⟨1, 1, 1⟩, comPosition := ⟨1, 1, 1⟩, comAngularVelocity := ⟨1, 1, 1⟩,
    comLinearVelocity := ⟨1, 1, 1⟩, jointPosition := ⟨1, 1, 1⟩, footPosition := ⟨1, 1, 1⟩,
    footVelocity := ⟨1, 1, 1⟩, contactForce := ⟨1, 1, 1⟩ }

/-- Sample cost of a one-legged model whose schedule reports the leg in contact or not. -/
def sampleCost [LinearOrderedField K] (sqrt : K → K) (inContact : Bool) :
    MotionTrackingCost K 1 :=
  MotionTrackingCost.new sqrt unitWeights (fun _ _ => inContact) sampleKinematics
    sampleKinematics sampleCompensation sampleAccess

/-- Sample desired trajectory: a constant state and the constant input `u`. -/
def sampleTrajectory [LinearOrderedField K] (u : List K) : CostDesiredTrajectories K :=
  { getDesiredState := fun _ => [0, 0, 0, 0, 0, 1, 0, 0, 0, 0, 0, 0, 0, 0, 0]
    getDesiredInput := fun _ => u }

end Cost

end switched_model

/-! ## Gait invariant and pre-computation request flags -/

namespace switched_model

/-- The data-model invariant of a gait: positive duration, event phases strictly increasing
and strictly inside (0, 1), one mode more than there are event phases. -/
def Gait.WellFormed (g : Gait) : Prop :=
  0 < g.duration ∧ g.eventPhases.Pairwise (fun p q => p < q) ∧
    (∀ p ∈ g.eventPhases, 0 < p ∧ p < 1) ∧
    g.modeSequence.length = g.eventPhases.length + 1

/-- A three-phase sample template: switching times 0 < 1/2 < 3/4 < 2, three modes. -/
def sampleTemplate : ModeSequenceTemplate :=
  { switchingTimes := [0, 1 / 2, 3 / 4, 2], modeSequence := [15, 9, 6] }

end switched_model

namespace ocs2

/-- Enum `PreComputation::Request` (line 42), seen through `static_cast<int>`: a request is
the integer its enumerators were or-ed to, never negative. -/
structure Request where
  value : Nat
  deriving DecidableEq

/-- Enumerator `Dynamics = 1`. -/
def Request.Dynamics : Request := ⟨1⟩

/-- Enumerator `Cost = 2`. -/
def Request.Cost : Request := ⟨2⟩

/-- Enumerator `Constraint = 4`. -/
def Request.Constraint : Request := ⟨4⟩

/-- Enumerator `SoftConstraint = 8`. -/
def Request.SoftConstraint : Request := ⟨8⟩

/-- Enumerator `Approximation = 16`. -/
def Request.Approximation : Request := ⟨16⟩

/-- The five enumerators, in declaration order. -/
def Request.flags : List Request :=
  [Request.Dynamics, Request.Cost, Request.Constraint, Request.SoftConstraint,
    Request.Approximation]

/-- Free function `operator|` on requests (lines 83-85): bitwise or of the integers. -/
def operatorOr (a b : Request) : Request := ⟨a.value ||| b.value⟩

/-- Free function `operator&` on requests (lines 87-89): whether the bitwise and of the
integers is not zero. -/
def operatorAnd (a b : Request) : Bool := (a.value &&& b.value) != 0

/-- A request obtained by or-ing the flag `first` with the flags of `more`, left to right:
`first | more[0] | more[1] | ..`. -/
def Request.combine (first : Request) (more : List Request) : Request :=
  more.foldl operatorOr first

end ocs2

/-! ## Theorems: gait receiver -/

namespace switched_model

/-- Running the receiver once hands back exactly what the buffered action produced when the
flag is set. -/
theorem preSolverRun_outcome_of_updated {S : Type} (r : GaitReceiver S) (args : SolverArgs)
    (s : S) (h : r.gaitUpdated_ = true) :
    (preSolverRun r args s).2 = r.setGaitAction_ args s := by
  unfold preSolverRun
  rw [if_pos h]
  rcases hr : r.setGaitAction_ args s with ⟨s1, _ | f⟩ <;> rfl

/-- Every handler leaves the flag set and stores the action of its command. -/
theorem handleCommand_eq {S : Type} (ops : GaitScheduleOps S) (assertions : Bool)
    (r : GaitReceiver S) (c : Command) :
    handleCommand ops assertions r c =
      { setGaitAction_ := commandAction ops assertions c, gaitUpdated_ := true } := by
  cases c <;> rfl

/-- The recording schedule answers a sequence call by appending it to the log. -/
theorem recordingOps_setGaitSequenceAtTime (gs : List Gait) (t : ℚ) (log : List ScheduleCall) :
    recordingOps.setGaitSequenceAtTime gs t log =
      ⟨log ++ [ScheduleCall.setGaitSequenceAtTime gs t], none⟩ := rfl

/-- On the recording schedule the loop appends one singleton-sequence call per gait, pairing
the gait at index `i + k` of the command with the start time at the same index. -/
theorem gaitSequenceLoop_recording (startTimes : List ℚ) :
    ∀ (gaits : List Gait) (i : Nat) (log : List ScheduleCall),
      i + gaits.length ≤ startTimes.length →
      gaitSequenceLoop recordingOps startTimes gaits i log =
        ⟨log ++ List.zipWith (fun g t => ScheduleCall.setGaitSequenceAtTime [g] t) gaits
          (startTimes.drop i), none⟩ := by
  intro gaits
  induction gaits with
  | nil => intro i log _; simp [gaitSequenceLoop]
  | cons g rest ih =>
    intro i log h
    have hi : i < startTimes.length := by simp only [List.length_cons] at h; omega
    have hdrop : startTimes.drop i = startTimes[i] :: startTimes.drop (i + 1) :=
      List.drop_eq_getElem_cons hi
    have hrest : (i + 1) + rest.length ≤ startTimes.length := by
      simp only [List.length_cons] at h; omega
    simp only [gaitSequenceLoop, List.getElem?_eq_getElem hi, recordingOps_setGaitSequenceAtTime]
    rw [ih (i + 1) _ hrest, hdrop, List.zipWith_cons_cons, List.append_assoc]
    rfl

/-- C1 (last writer wins): after the handler of command A and then the handler of command B,
one `preSolverRun` leaves the schedule (and reports the failure, if any) exactly as the
action of B alone does on the original schedule; the result is the same as if A had never
been received, whatever A was. -/
theorem last_writer_wins {S : Type} (ops : GaitScheduleOps S) (assertions : Bool)
    (r : GaitReceiver S) (A B : Command) (args : SolverArgs) (s : S) :
    (preSolverRun (handleCommand ops assertions (handleCommand ops assertions r A) B)
        args s).2 = commandAction ops assertions B args s ∧
      (preSolverRun (handleCommand ops assertions (handleCommand ops assertions r A) B)
        args s).2 = (preSolverRun (handleCommand ops assertions r B) args s).2 := by
  constructor
  · rw [preSolverRun_outcome_of_updated _ _ _ (by rw [handleCommand_eq])]
    rw [handleCommand_eq]
  · rw [preSolverRun_outcome_of_updated _ _ _ (by rw [handleCommand_eq]),
      preSolverRun_outcome_of_updated _ _ _ (by rw [handleCommand_eq])]
    rw [handleCommand_eq, handleCommand_eq]

/-- C2, the claim as stated fails: a receiver holding a mode-sequence command whose schedule
call throws is still Pending after `preSolverRun`, and a second `preSolverRun` with no new
command changes the schedule again. -/
theorem consumed_once_fails_on_throwing_action :
    (handleCommand rejectingOps true GaitReceiver.new
        (Command.modeSequence ⟨[0, 1], [15]⟩)).gaitUpdated_ = true ∧
      (preSolverRun (handleCommand rejectingOps true GaitReceiver.new
        (Command.modeSequence ⟨[0, 1], [15]⟩)) sampleArgs []).1.gaitUpdated_ = true ∧
      (preSolverRun (handleCommand rejectingOps true GaitReceiver.new
        (Command.modeSequence ⟨[0, 1], [15]⟩)) sampleArgs []).2.sched.length = 1 ∧
      (preSolverRun
        (preSolverRun (handleCommand rejectingOps true GaitReceiver.new
          (Command.modeSequence ⟨[0, 1], [15]⟩)) sampleArgs []).1 sampleArgs
        (preSolverRun (handleCommand rejectingOps true GaitReceiver.new
          (Command.modeSequence ⟨[0, 1], [15]⟩)) sampleArgs []).2.sched).2.sched.length = 2 := by
  refine ⟨rfl, rfl, rfl, rfl⟩

/-- C2 (amended): in the Idle state `preSolverRun` leaves schedule and receiver unchanged,
for every receiver, the freshly constructed one included; in the Pending state, when the
buffered action returns normally, it applies that action once and leaves the receiver Idle,
so a second `preSolverRun` with no new command leaves schedule and receiver unchanged. -/
theorem preSolverRun_consumes_once {S : Type} (r : GaitReceiver S) (args args2 : SolverArgs)
    (s : S) :
    (r.gaitUpdated_ = false → preSolverRun r args s = (r, ⟨s, none⟩)) ∧
      preSolverRun { r with gaitUpdated_ := false } args s =
        ({ r with gaitUpdated_ := false }, ⟨s, none⟩) ∧
      preSolverRun (GaitReceiver.new : GaitReceiver S) args s = (GaitReceiver.new, ⟨s, none⟩) ∧
      ((r.setGaitAction_ args s).fault = none →
        (preSolverRun { r with gaitUpdated_ := true } args s).2 = r.setGaitAction_ args s ∧
        (preSolverRun { r with gaitUpdated_ := true } args s).1 =
          { r with gaitUpdated_ := false } ∧
        preSolverRun (preSolverRun { r with gaitUpdated_ := true } args s).1 args2
            (preSolverRun { r with gaitUpdated_ := true } args s).2.sched =
          ({ r with gaitUpdated_ := false },
            ⟨(preSolverRun { r with gaitUpdated_ := true } args s).2.sched, none⟩)) := by
  refine ⟨?_, rfl, rfl, ?_⟩
  · intro hidle
    unfold preSolverRun
    simp [hidle]
  · intro hok
    have hrun : preSolverRun { r with gaitUpdated_ := true } args s =
        ({ r with gaitUpdated_ := false }, r.setGaitAction_ args s) := by
      unfold preSolverRun
      rcases hr : r.setGaitAction_ args s with ⟨s1, _ | f⟩
      · simp [hr]
      · rw [hr] at hok; simp at hok
    refine ⟨?_, ?_, ?_⟩
    · rw [hrun]
    · rw [hrun]
    · rw [hrun]; rfl

/-- Witness of C2 (amended): the Idle conjunct at a receiver holding a mode-sequence
command on the rejecting schedule, whose action always fails, and the Pending conjuncts on
the recording schedule, where the action returns normally. -/
theorem preSolverRun_consumes_once_witness :
    ({ (handleCommand rejectingOps true GaitReceiver.new
          (Command.modeSequence ⟨[0, 1], [15]⟩)) with gaitUpdated_ := false } :
        GaitReceiver (List ScheduleCall)).gaitUpdated_ = false ∧
      preSolverRun { (handleCommand rejectingOps true GaitReceiver.new
          (Command.modeSequence ⟨[0, 1], [15]⟩)) with gaitUpdated_ := false } sampleArgs [] =
        ({ (handleCommand rejectingOps true GaitReceiver.new
          (Command.modeSequence ⟨[0, 1], [15]⟩)) with gaitUpdated_ := false }, ⟨[], none⟩) ∧
      ((handleCommand recordingOps true GaitReceiver.new
        (Command.modeSequence ⟨[0, 1], [15]⟩)).setGaitAction_ sampleArgs []).fault = none ∧
      (preSolverRun { (handleCommand recordingOps true GaitReceiver.new
        (Command.modeSequence ⟨[0, 1], [15]⟩)) with gaitUpdated_ := true } sampleArgs []).1 =
        { (handleCommand recordingOps true GaitReceiver.new
          (Command.modeSequence ⟨[0, 1], [15]⟩)) with gaitUpdated_ := false } :=
  ⟨rfl,
    (preSolverRun_consumes_once { (handleCommand rejectingOps true GaitReceiver.new
      (Command.modeSequence ⟨[0, 1], [15]⟩)) with gaitUpdated_ := false }
      sampleArgs sampleArgs []).1 rfl,
    rfl,
    ((preSolverRun_consumes_once (handleCommand recordingOps true GaitReceiver.new
      (Command.modeSequence ⟨[0, 1], [15]⟩)) sampleArgs sampleArgs []).2.2.2 rfl).2.1⟩

/-- The loop is the in-order application of the command's pairs from index `i` on, as long
as every remaining gait has a start time. -/
theorem gaitSequenceLoop_eq_applyPairsInOrder {S : Type} (ops : GaitScheduleOps S)
    (startTimes : List ℚ) :
    ∀ (gaits : List Gait) (i : Nat) (s : S), i + gaits.length ≤ startTimes.length →
      gaitSequenceLoop ops startTimes gaits i s =
        applyPairsInOrder ops (gaits.zip (startTimes.drop i)) s := by
  intro gaits
  induction gaits with
  | nil => intro i s _; simp [gaitSequenceLoop, applyPairsInOrder]
  | cons g rest ih =>
    intro i s h
    have hi : i < startTimes.length := by simp only [List.length_cons] at h; omega
    have hdrop : startTimes.drop i = startTimes[i] :: startTimes.drop (i + 1) :=
      List.drop_eq_getElem_cons hi
    have hrest : (i + 1) + rest.length ≤ startTimes.length := by
      simp only [List.length_cons] at h; omega
    rw [hdrop, List.zip_cons_cons]
    simp only [gaitSequenceLoop, List.getElem?_eq_getElem hi, applyPairsInOrder]
    rcases hc : ops.setGaitSequenceAtTime [g] startTimes[i] s with ⟨s1, _ | f⟩
    · exact ih (i + 1) s1 hrest
    · rfl

/-- C3, the claim as stated fails: with assertions compiled in, a gait-sequence command with
one gait and no start time ends in the assertion failure, not in `InvalidArgument`; with
assertions compiled out, one gait with two start times is applied and no failure is
reported, so the schedule has changed. -/
theorem length_mismatch_not_invalid_argument :
    (preSolverRun (mpcGaitSequenceCallback recordingOps true GaitReceiver.new [standGait] [])
        sampleArgs []).2 = ⟨[], some Fault.assertionFailed⟩ ∧
      (preSolverRun
        (mpcGaitSequenceCallback recordingOps false GaitReceiver.new [standGait] [1, 2])
        sampleArgs []).2 = ⟨[ScheduleCall.setGaitSequenceAtTime [standGait] 1], none⟩ := by
  refine ⟨rfl, rfl⟩

/-- C3 (amended): for a gait-sequence command whose two lists differ in length, in a build
that keeps assertions, applying the buffered action through `preSolverRun` stops at the
assertion of the action: the failure reported is the assertion failure and the schedule is
exactly as it was before the call, no pair of the sequence having been applied. -/
theorem length_mismatch_stops_at_assertion {S : Type} (ops : GaitScheduleOps S)
    (r : GaitReceiver S) (gaitSequence : List Gait) (startTimes : List ℚ) (args : SolverArgs)
    (s : S) (h : gaitSequence.length ≠ startTimes.length) :
    (preSolverRun (mpcGaitSequenceCallback ops true r gaitSequence startTimes) args s).2 =
      ⟨s, some Fault.assertionFailed⟩ := by
  rw [preSolverRun_outcome_of_updated _ _ _ rfl]
  simp [mpcGaitSequenceCallback, gaitSequenceAction, h]

/-- Witness of C3 (amended): two gaits, one start time. -/
theorem length_mismatch_stops_at_assertion_witness :
    [standGait, trotGait].length ≠ [(7 : ℚ)].length ∧
      (preSolverRun (mpcGaitSequenceCallback recordingOps true GaitReceiver.new
        [standGait, trotGait] [7]) sampleArgs []).2 = ⟨[], some Fault.assertionFailed⟩ :=
  ⟨by decide, length_mismatch_stops_at_assertion recordingOps GaitReceiver.new
    [standGait, trotGait] [7] sampleArgs [] (by decide)⟩

/-- C4, the claim as stated fails: a receiver holding a scheduled-gait command whose
schedule call throws reports the failure, but stays Pending, and the next `preSolverRun`
with no new command invokes the same action again (the schedule sees a second call). -/
theorem failing_apply_is_retried :
    (preSolverRun (handleCommand rejectingOps true GaitReceiver.new
        (Command.scheduledGait ⟨[3, 4], [15]⟩)) sampleArgs []).2.fault =
        some Fault.invalidArgument ∧
      (preSolverRun (handleCommand rejectingOps true GaitReceiver.new
        (Command.scheduledGait ⟨[3, 4], [15]⟩)) sampleArgs []).1.gaitUpdated_ = true ∧
      (preSolverRun
        (preSolverRun (handleCommand rejectingOps true GaitReceiver.new
          (Command.scheduledGait ⟨[3, 4], [15]⟩)) sampleArgs []).1 sampleArgs
        (preSolverRun (handleCommand rejectingOps true GaitReceiver.new
          (Command.scheduledGait ⟨[3, 4], [15]⟩)) sampleArgs []).2.sched).2.sched =
        [ScheduleCall.setGaitAtTime (gaitOfTemplate ⟨[3, 4], [15]⟩) 3,
          ScheduleCall.setGaitAtTime (gaitOfTemplate ⟨[3, 4], [15]⟩) 3] := by
  refine ⟨rfl, rfl, rfl⟩

/-- C4 (amended): when the buffered action of a Pending receiver fails, `preSolverRun`
hands the failure (and the schedule as the action left it) to its caller and leaves the
receiver as it was, still Pending with the same action, so the next `preSolverRun`
invokes that action again. -/
theorem failing_action_stays_pending {S : Type} (r : GaitReceiver S) (args args2 : SolverArgs)
    (s s2 : S) (f : Fault) (hp : r.gaitUpdated_ = true)
    (hf : (r.setGaitAction_ args s).fault = some f) :
    (preSolverRun r args s).2 = r.setGaitAction_ args s ∧
      (preSolverRun r args s).2.fault = some f ∧
      (preSolverRun r args s).1 = r ∧
      (preSolverRun (preSolverRun r args s).1 args2 s2).2 = r.setGaitAction_ args2 s2 := by
  have h1 : (preSolverRun r args s).1 = r := by
    unfold preSolverRun
    rw [if_pos hp]
    rcases hr : r.setGaitAction_ args s with ⟨s1, _ | g⟩
    · rw [hr] at hf; simp at hf
    · rfl
  refine ⟨preSolverRun_outcome_of_updated r args s hp, ?_, h1, ?_⟩
  · rw [preSolverRun_outcome_of_updated r args s hp, hf]
  · rw [h1]; exact preSolverRun_outcome_of_updated r args2 s2 hp

/-- Witness of C4 (amended): a gait-sequence command on a schedule that rejects it. -/
theorem failing_action_stays_pending_witness :
    (handleCommand rejectingOps true GaitReceiver.new
        (Command.gaitSequence [standGait] [2])).gaitUpdated_ = true ∧
      (preSolverRun (handleCommand rejectingOps true GaitReceiver.new
        (Command.gaitSequence [standGait] [2])) sampleArgs []).1 =
        handleCommand rejectingOps true GaitReceiver.new
          (Command.gaitSequence [standGait] [2]) :=
  ⟨rfl, (failing_action_stays_pending (handleCommand rejectingOps true GaitReceiver.new
    (Command.gaitSequence [standGait] [2])) sampleArgs sampleArgs [] []
    Fault.invalidArgument rfl rfl).2.2.1⟩

/-- C9, the claim as stated fails: for the command with gaits (stand, trot) and start times
(5, 3) the schedule receives the pair with start time 5 first and the pair with start time
3 last; the calls are not in ascending start-time order. -/
theorem gait_sequence_applied_in_command_order_not_sorted :
    (preSolverRun (mpcGaitSequenceCallback recordingOps true GaitReceiver.new
        [standGait, trotGait] [5, 3]) sampleArgs []).2 =
        ⟨[ScheduleCall.setGaitSequenceAtTime [standGait] 5,
          ScheduleCall.setGaitSequenceAtTime [trotGait] 3], none⟩ ∧
      ((preSolverRun (mpcGaitSequenceCallback recordingOps true GaitReceiver.new
        [standGait, trotGait] [5, 3]) sampleArgs []).2.sched.map ScheduleCall.time) = [5, 3] ∧
      ¬ ((5 : ℚ) ≤ 3) := by
  refine ⟨rfl, rfl, by norm_num⟩

/-- C9 (amended): for a gait-sequence command with equally long lists the buffered action
applies the (gait, start time) pairs in the order of the command, index by index, each as
a singleton sequence and stopping at the first failing call; on the recording schedule
the calls appended are exactly the command's pairs in command order, so their start times
read `startTimes` and the last pair of the command is applied last. -/
theorem gait_sequence_applied_in_command_order {S : Type} (ops : GaitScheduleOps S)
    (assertions : Bool) (r : GaitReceiver S) (r2 : GaitReceiver (List ScheduleCall))
    (gaitSequence : List Gait) (startTimes : List ℚ) (args : SolverArgs) (s : S)
    (log : List ScheduleCall) (h : gaitSequence.length = startTimes.length) :
    (preSolverRun (mpcGaitSequenceCallback ops assertions r gaitSequence startTimes)
        args s).2 = applyPairsInOrder ops (gaitSequence.zip startTimes) s ∧
      (preSolverRun (mpcGaitSequenceCallback recordingOps assertions r2 gaitSequence
        startTimes) args log).2 =
        ⟨log ++ List.zipWith (fun g t => ScheduleCall.setGaitSequenceAtTime [g] t)
          gaitSequence startTimes, none⟩ ∧
      (List.zipWith (fun g t => ScheduleCall.setGaitSequenceAtTime [g] t)
        gaitSequence startTimes).map ScheduleCall.time = startTimes := by
  have hact : ∀ {T : Type} (o : GaitScheduleOps T) (x : T),
      gaitSequenceAction o assertions gaitSequence startTimes args x =
        gaitSequenceLoop o startTimes gaitSequence 0 x := by
    intro T o x
    simp [gaitSequenceAction, h]
  refine ⟨?_, ?_, ?_⟩
  · rw [preSolverRun_outcome_of_updated _ _ _ rfl]
    show gaitSequenceAction ops assertions gaitSequence startTimes args s = _
    rw [hact, gaitSequenceLoop_eq_applyPairsInOrder ops startTimes gaitSequence 0 s (by omega)]
    simp
  · rw [preSolverRun_outcome_of_updated _ _ _ rfl]
    show gaitSequenceAction recordingOps assertions gaitSequence startTimes args log = _
    rw [hact, gaitSequenceLoop_recording startTimes gaitSequence 0 log (by omega)]
    simp
  · clear hact
    induction gaitSequence generalizing startTimes with
    | nil =>
      cases startTimes with
      | nil => rfl
      | cons t ts => simp at h
    | cons g gs ih =>
      cases startTimes with
      | nil => simp at h
      | cons t ts =>
        simp only [List.length_cons, Nat.add_right_cancel_iff] at h
        simp only [List.zipWith_cons_cons, List.map_cons, ScheduleCall.time, ih ts h]

/-- Witness of C9 (amended): the command with start times (5, 3). -/
theorem gait_sequence_applied_in_command_order_witness :
    [standGait, trotGait].length = [(5 : ℚ), 3].length ∧
      (preSolverRun (mpcGaitSequenceCallback recordingOps false GaitReceiver.new
        [standGait, trotGait] [5, 3]) sampleArgs []).2 =
        ⟨[] ++ List.zipWith (fun g t => ScheduleCall.setGaitSequenceAtTime [g] t)
          [standGait, trotGait] [5, 3], none⟩ :=
  ⟨rfl, (gait_sequence_applied_in_command_order recordingOps false GaitReceiver.new
    GaitReceiver.new [standGait, trotGait] [5, 3] sampleArgs [] [] rfl).2.1⟩

/-- C10, evaluated on the code: the mode-sequence and gait-sequence handlers touch the
buffered action and the flag only inside `receivedGaitMutex_`, the scheduled-gait handler
touches them with no lock held, and `preSolverRun` reads the flag before it locks; both
locks of `preSolverRun` are free again on every exit.  The run `racingRun` respects the
mutex, consists of `preSolverRun` on the control thread and the scheduled-gait handler on a
producer thread, and has the producer overwrite the action inside the control thread's
critical section. -/
theorem scheduled_gait_handler_bypasses_lock :
    (∀ msg, accessesGuarded false (handlerEvents (Command.modeSequence msg)) = true) ∧
      (∀ gs ts, accessesGuarded false (handlerEvents (Command.gaitSequence gs ts)) = true) ∧
      (∀ msg, accessesGuarded false (handlerEvents (Command.scheduledGait msg)) = false) ∧
      (∀ throws, accessesGuarded false (preSolverRunEvents true throws) = false) ∧
      (∀ updated throws, locksReleased false false (preSolverRunEvents updated throws) = true) ∧
      mutexRespected none racingRun = true ∧
      eventsOf ThreadId.control racingRun = preSolverRunEvents true false ∧
      eventsOf ThreadId.producer racingRun = mpcModeScheduledGaitCallbackEvents ∧
      writesInsideForeignSection none racingRun = true := by
  refine ⟨fun _ => rfl, fun _ _ => rfl, fun _ => rfl, ?_, ?_, rfl, rfl, rfl, rfl⟩
  · intro t; cases t <;> rfl
  · intro u t; cases u <;> cases t <;> rfl

end switched_model

/-! ## Theorems: motion tracking cost -/

namespace switched_model

section CostTheorems

variable {K : Type}

/-- Writing the values `vals` to consecutive indices behind a prefix replaces exactly the
stretch of the same length and nothing else. -/
theorem applyWrites_enumFrom (vals : List K) :
    ∀ (pre old post : List K), old.length = vals.length →
      applyWrites (pre ++ old ++ post) (vals.enumFrom pre.length) = pre ++ vals ++ post := by
  induction vals with
  | nil =>
    intro pre old post h
    have : old = [] := List.length_eq_zero.mp h
    subst this
    simp [applyWrites]
  | cons x xs ih =>
    intro pre old post h
    cases old with
    | nil => simp at h
    | cons o os =>
      have hos : os.length = xs.length := by simpa using h
      have hset : (pre ++ (o :: os) ++ post).set pre.length x = (pre ++ [x]) ++ os ++ post := by
        simp [List.append_assoc]
      have hlen : (pre ++ [x]).length = pre.length + 1 := by simp
      simp only [List.enumFrom_cons, applyWrites, List.foldl_cons]
      rw [hset, ← hlen]
      have := ih (pre ++ [x]) os post hos
      simp only [applyWrites] at this
      rw [this]
      simp

/-- Writing a whole vector coefficient by coefficient from index 0 yields the values
written, whatever the vector held before. -/
theorem applyWrites_enumFrom_zero (vals v0 : List K) (h : v0.length = vals.length) :
    applyWrites v0 (vals.enumFrom 0) = vals := by
  have := applyWrites_enumFrom vals [] v0 [] h
  simpa using this

/-- Blocks of equal length written leg after leg at strides of the block length are the
consecutive writes of their concatenation. -/
theorem flatMap_enumFrom_blocks (m : Nat) :
    ∀ (n : Nat) (f : Fin n → List K), (∀ i, (f i).length = m) → ∀ (start : Nat),
      (List.finRange n).flatMap (fun i => (f i).enumFrom (start + i.val * m)) =
        ((List.finRange n).flatMap f).enumFrom start := by
  intro n
  induction n with
  | zero => intro f _ start; simp [List.finRange]
  | succ n ih =>
    intro f hlen start
    rw [List.finRange_succ, List.flatMap_cons, List.flatMap_cons, List.flatMap_map,
      List.flatMap_map, List.enumFrom_append, hlen 0]
    have h0 : start + (0 : Fin (n + 1)).val * m = start := by simp
    rw [h0]
    congr 1
    have key := ih (fun j => f (Fin.succ j)) (fun i => hlen _) (start + m)
    have hidx : ∀ a : Fin n, start + (a.val + 1) * m = start + m + a.val * m :=
      fun a => by ring
    simpa [Function.comp, hidx] using key


/-- The twelve coefficients of one leg, in layout order. -/
theorem legBlock_length {n : Nat} (a : CostElements K n) (leg : Fin n) :
    ((a.jointPosition leg).toList ++ (a.footPosition leg).toList ++
      (a.footVelocity leg).toList ++ (a.contactForce leg).toList).length = legTargets := rfl

/-- The writes of `costElementsToVector` are the coefficients of the field layout, written
to the indices 0, 1, 2, .. in this order. -/
theorem costElementsWrites_eq {n : Nat} (a : CostElements K n) :
    costElementsWrites a = (fieldLayout a).enumFrom 0 := by
  unfold costElementsWrites fieldLayout
  rw [List.enumFrom_append]
  congr 1
  have h := flatMap_enumFrom_blocks legTargets n
    (fun leg => (a.jointPosition leg).toList ++ (a.footPosition leg).toList ++
      (a.footVelocity leg).toList ++ (a.contactForce leg).toList)
    (fun leg => legBlock_length a leg) baseTargets
  simp only [commaWrites, List.flatMap_cons, List.flatMap_nil, List.append_nil,
    List.append_assoc] at h ⊢
  simpa [Vec3.toList, baseTargets] using h

/-- Length of a concatenation of blocks of equal length. -/
theorem length_flatMap_blocks {α : Type} (m : Nat) (f : α → List K)
    (hlen : ∀ x, (f x).length = m) : ∀ l : List α, (l.flatMap f).length = l.length * m := by
  intro l
  induction l with
  | nil => simp
  | cons x xs ih => simp [List.flatMap_cons, hlen x, ih, Nat.succ_mul, Nat.add_comm]

/-- The field layout has `costVectorLength` coefficients. -/
theorem fieldLayout_length {n : Nat} (a : CostElements K n) :
    (fieldLayout a).length = costVectorLength n := by
  unfold fieldLayout
  rw [List.length_append, length_flatMap_blocks legTargets _ (fun leg => legBlock_length a leg)]
  simp [Vec3.toList, costVectorLength, baseTargets]

/-- Assigning into a vector of the right length yields the field layout, whatever the
vector held before. -/
theorem costElementsAssign_eq {n : Nat} (v0 : List K) (a : CostElements K n)
    (h : v0.length = costVectorLength n) : costElementsAssign v0 a = fieldLayout a := by
  unfold costElementsAssign
  rw [costElementsWrites_eq]
  exact applyWrites_enumFrom_zero _ _ (by rw [h, fieldLayout_length])

/-- The flattened vector is the field layout. -/
theorem costElementsToVector_eq [Zero K] {n : Nat} (a : CostElements K n) :
    costElementsToVector a = fieldLayout a :=
  costElementsAssign_eq _ a (by simp)

/-- In a concatenation of blocks of length `m`, the stretch of `m` coefficients starting at
`i * m` is the block of the element at index `i`. -/
theorem take_drop_flatMap_blocks {α : Type} (m : Nat) (f : α → List K)
    (hlen : ∀ x, (f x).length = m) :
    ∀ (l : List α) (i : Nat) (hi : i < l.length),
      ((l.flatMap f).drop (i * m)).take m = f l[i] := by
  intro l
  induction l with
  | nil => intro i hi; simp at hi
  | cons x xs ih =>
    intro i hi
    cases i with
    | zero =>
      simp only [Nat.zero_mul, List.drop_zero, List.flatMap_cons, List.getElem_cons_zero]
      exact List.take_left' (hlen x)
    | succ j =>
      have hj : j < xs.length := by simpa using hi
      have hidx : (j + 1) * m = (f x).length + j * m := by rw [hlen x]; ring
      rw [List.flatMap_cons, hidx, List.drop_append]
      simpa using ih j hj

/-- The stretch of twelve coefficients of a leg inside the field layout. -/
theorem fieldLayout_legBlock {n : Nat} (a : CostElements K n) (leg : Fin n) :
    ((fieldLayout a).drop (baseTargets + leg.val * legTargets)).take legTargets =
      (a.jointPosition leg).toList ++ (a.footPosition leg).toList ++
        (a.footVelocity leg).toList ++ (a.contactForce leg).toList := by
  unfold fieldLayout
  have hbase : (a.eulerXYZ.toList ++ a.comPosition.toList ++ a.comAngularVelocity.toList ++
      a.comLinearVelocity.toList).length = baseTargets := rfl
  rw [← hbase, List.drop_append]
  have h := take_drop_flatMap_blocks legTargets
    (fun leg : Fin n => (a.jointPosition leg).toList ++ (a.footPosition leg).toList ++
      (a.footVelocity leg).toList ++ (a.contactForce leg).toList)
    (fun leg => legBlock_length a leg) (List.finRange n) leg.val (by simp)
  simpa using h


/-- C7 (fixed layout): the flattened vector has `12 + 12 * n` coefficients; its first twelve
are orientation, CoM position, CoM angular velocity, CoM linear velocity; the twelve from
`12 + 12 * leg` on are joint position, foot position, foot velocity, contact force of that
leg; the writes performed go to the indices `0, 1, .., 12 + 12 * n - 1`, each once, so the
result does not depend on what the fresh vector held. -/
theorem costElementsToVector_layout [Zero K] {n : Nat} (a : CostElements K n) :
    (costElementsToVector a).length = 12 + 12 * n ∧
      costVectorLength n = 12 + 12 * n ∧
      (costElementsToVector a).take 12 =
        a.eulerXYZ.toList ++ a.comPosition.toList ++ a.comAngularVelocity.toList ++
          a.comLinearVelocity.toList ∧
      (∀ leg : Fin n, ((costElementsToVector a).drop (12 + 12 * leg.val)).take 12 =
        (a.jointPosition leg).toList ++ (a.footPosition leg).toList ++
          (a.footVelocity leg).toList ++ (a.contactForce leg).toList) ∧
      (costElementsWrites a).map Prod.fst = List.range (12 + 12 * n) ∧
      (∀ fresh : Fin (12 + 12 * n) → K,
        costElementsAssign (List.ofFn fresh) a = costElementsToVector a) := by
  have hlen : costVectorLength n = 12 + 12 * n := by
    simp [costVectorLength, baseTargets, legTargets, Nat.mul_comm]
  refine ⟨?_, hlen, ?_, ?_, ?_, ?_⟩
  · rw [costElementsToVector_eq, fieldLayout_length, hlen]
  · rw [costElementsToVector_eq]
    unfold fieldLayout
    exact List.take_left' rfl
  · intro leg
    have h := fieldLayout_legBlock a leg
    rw [costElementsToVector_eq]
    simpa [baseTargets, legTargets, Nat.mul_comm] using h
  · rw [costElementsWrites_eq, List.enumFrom_map_fst, fieldLayout_length, hlen,
      List.range_eq_range']
  · intro fresh
    rw [costElementsToVector_eq]
    exact costElementsAssign_eq _ a (by rw [List.length_ofFn, hlen])

/-- The difference of a vector with itself, scaled coefficient-wise, is zero. -/
theorem cwiseProduct_vsub_self [Ring K] :
    ∀ (a w : List K), w.length = a.length →
      cwiseProduct (vsub a a) w = List.replicate a.length 0 := by
  intro a
  induction a with
  | nil => intro w _; simp [vsub, cwiseProduct]
  | cons x xs ih =>
    intro w h
    cases w with
    | nil => simp at h
    | cons y ys =>
      have hys : ys.length = xs.length := by simpa using h
      show (x - x) * y :: cwiseProduct (vsub xs xs) ys = 0 :: List.replicate xs.length 0
      rw [ih ys hys, sub_self, zero_mul]

/-- The motion targets only depend on what the kinematics model returns. -/
theorem computeMotionTargets_congr [Zero K] [Add K] [Mul K] {n : Nat} (acc : ComKinoAccess K)
    (x u : List K) (k1 k2 : KinematicsModelBase K n)
    (hpos : ∀ leg q, k1.positionBaseToFootInBaseFrame leg q =
      k2.positionBaseToFootInBaseFrame leg q)
    (hvel : ∀ leg q dq, k1.footVelocityRelativeToBaseInBaseFrame leg q dq =
      k2.footVelocityRelativeToBaseInBaseFrame leg q dq) :
    computeMotionTargets acc x u k1 = computeMotionTargets acc x u k2 := by
  unfold computeMotionTargets motionTarget
  simp only [hpos, hvel]

/-- The motion targets have `costVectorLength` coefficients. -/
theorem computeMotionTargets_length [Zero K] [Add K] [Mul K] {n : Nat} (acc : ComKinoAccess K)
    (x u : List K) (k : KinematicsModelBase K n) :
    (computeMotionTargets acc x u k).length = costVectorLength n := by
  unfold computeMotionTargets
  rw [costElementsToVector_eq, fieldLayout_length]

/-- C5 (zero residual on exact tracking): when the state is the interpolated desired state,
the input is the reference input `getParameters` uses at `t`, and the differentiable
kinematics model returns the same foot positions and velocities as the numeric one, the
residual against `getParameters` is the zero vector of length `12 + 12 * n`. -/
theorem exact_tracking_zero_residual [LinearOrderedField K] {n : Nat} (sqrt : K → K)
    (settings : Weights K) (getContactFlags : K → Fin n → Bool)
    (kinematicModel adKinematicModel : KinematicsModelBase K n)
    (weightCompensatingInputs : (Fin n → Bool) → Vec3 K → List K) (access : ComKinoAccess K)
    (t : K) (desiredTrajectory : CostDesiredTrajectories K) (state input : List K)
    (hstate : state = desiredTrajectory.getDesiredState t)
    (hinput : input = referenceInput (MotionTrackingCost.new sqrt settings getContactFlags
      kinematicModel adKinematicModel weightCompensatingInputs access) t desiredTrajectory)
    (hpos : ∀ leg q, adKinematicModel.positionBaseToFootInBaseFrame leg q =
      kinematicModel.positionBaseToFootInBaseFrame leg q)
    (hvel : ∀ leg q dq, adKinematicModel.footVelocityRelativeToBaseInBaseFrame leg q dq =
      kinematicModel.footVelocityRelativeToBaseInBaseFrame leg q dq) :
    costVectorFunction (MotionTrackingCost.new sqrt settings getContactFlags kinematicModel
        adKinematicModel weightCompensatingInputs access) t state input
        (getParameters (MotionTrackingCost.new sqrt settings getContactFlags kinematicModel
          adKinematicModel weightCompensatingInputs access) t desiredTrajectory) =
      List.replicate (12 + 12 * n) 0 := by
  have hlen : costVectorLength n = 12 + 12 * n := by
    simp [costVectorLength, baseTargets, legTargets, Nat.mul_comm]
  unfold costVectorFunction getParameters
  simp only [MotionTrackingCost.new] at hinput ⊢
  rw [← hstate, ← hinput,
    computeMotionTargets_congr access state input adKinematicModel kinematicModel hpos hvel,
    cwiseProduct_vsub_self _ _ (by
      rw [costElementsToVector_eq, fieldLayout_length, computeMotionTargets_length]),
    computeMotionTargets_length, hlen]


/-- Witness of C5: the one-legged sample model tracking its own reference. -/
theorem exact_tracking_zero_residual_witness :
    costVectorFunction (sampleCost (fun w => w) true) (0 : ℚ)
        ((sampleTrajectory [0, 0, 50, 0, 0, 0]).getDesiredState 0)
        (referenceInput (sampleCost (fun w => w) true) 0 (sampleTrajectory [0, 0, 50, 0, 0, 0]))
        (getParameters (sampleCost (fun w => w) true) 0 (sampleTrajectory [0, 0, 50, 0, 0, 0])) =
      List.replicate (12 + 12 * 1) 0 :=
  exact_tracking_zero_residual (fun w => w) unitWeights (fun _ _ => true) sampleKinematics
    sampleKinematics sampleCompensation sampleAccess 0 (sampleTrajectory [0, 0, 50, 0, 0, 0])
    _ _ rfl rfl (fun _ _ => rfl) (fun _ _ _ => rfl)

/-- The contact-force stretch of a leg inside the field layout. -/
theorem contactForceBlock_fieldLayout {n : Nat} (a : CostElements K n) (leg : Fin n) :
    contactForceBlock (fieldLayout a) leg.val = (a.contactForce leg).toList := by
  have h := fieldLayout_legBlock a leg
  have h9 : ((((fieldLayout a).drop (baseTargets + leg.val * legTargets)).take legTargets).drop
      9).take 3 = (a.contactForce leg).toList := by
    rw [h]; rfl
  unfold contactForceBlock
  rw [← h9, List.drop_take, List.drop_drop, List.take_take]
  simp [legTargets]

/-- The contact-force stretch of the targets `getParameters` returns is read from the
reference input the method settled on. -/
theorem contactForceBlock_getParameters [LinearOrderedField K] {n : Nat}
    (c : MotionTrackingCost K n) (t : K) (desiredTrajectory : CostDesiredTrajectories K)
    (leg : Fin n) :
    contactForceBlock (getParameters c t desiredTrajectory) leg.val =
      (segment3 (referenceInput c t desiredTrajectory) (3 * leg.val)).toList := by
  unfold getParameters computeMotionTargets
  rw [costElementsToVector_eq, contactForceBlock_fieldLayout]
  rfl

/-- Eigen `isZero` accepts exactly the vectors whose coefficients are all within the default
precision of zero. -/
theorem isZero_iff [LinearOrderedField K] (v : List K) :
    isZero v = true ↔ ∀ x ∈ v, |x| ≤ 1 / 1000000000000 := by
  simp [isZero, dummy_precision]


/-- A vector of exact zeros passes Eigen `isZero`. -/
theorem isZero_of_all_zero [LinearOrderedField K] (v : List K) (h : ∀ x ∈ v, x = 0) :
    isZero v = true := by
  rw [isZero_iff]
  intro x hx
  rw [h x hx, abs_zero]
  positivity

/-- A desired input with one coefficient of size `1e-13` passes Eigen `isZero`. -/
theorem isZero_tiny :
    isZero ([0, 0, 1 / 10000000000000, 0, 0, 0] : List ℚ) = true := by
  rw [isZero_iff]
  intro x hx
  simp only [List.mem_cons, List.mem_singleton, List.not_mem_nil, or_false] at hx
  rcases hx with rfl | rfl | rfl | rfl | rfl | rfl <;> norm_num [abs_of_nonneg]

/-- C8, the claim as stated fails: the desired input `(0, 0, 1e-13, 0, 0, 0)` is not exactly
zero, yet the contact-force block returned for the leg is the compensating force
`(0, 0, 100)` instead of the input's own `(0, 0, 1e-13)`, and it follows the contact flag
the schedule reports (`(0, 0, 0)` when the leg is reported in swing). -/
theorem tiny_desired_input_is_overwritten :
    (1 / 10000000000000 : ℚ) ≠ 0 ∧
      contactForceBlock (getParameters (sampleCost (fun w => w) true) (0 : ℚ)
        (sampleTrajectory [0, 0, 1 / 10000000000000, 0, 0, 0])) (0 : Fin 1).val =
        [0, 0, 100] ∧
      (segment3 ([0, 0, 1 / 10000000000000, 0, 0, 0] : List ℚ) (3 * (0 : Fin 1).val)).toList =
        [0, 0, 1 / 10000000000000] ∧
      contactForceBlock (getParameters (sampleCost (fun w => w) false) (0 : ℚ)
        (sampleTrajectory [0, 0, 1 / 10000000000000, 0, 0, 0])) (0 : Fin 1).val =
        [0, 0, 0] := by
  have href : ∀ b : Bool, referenceInput (sampleCost (fun w => w) b) (0 : ℚ)
      (sampleTrajectory [0, 0, 1 / 10000000000000, 0, 0, 0]) =
      sampleCompensation (fun _ => b) (segment3 [0, 0, 0, 0, 0, 1] 0) := by
    intro b
    unfold referenceInput
    simp only [sampleTrajectory, isZero_tiny, if_true]
    rfl
  refine ⟨by norm_num, ?_, rfl, ?_⟩
  · rw [contactForceBlock_getParameters, href]; rfl
  · rw [contactForceBlock_getParameters, href]; rfl

/-- C8 (amended): `getParameters` tests the interpolated desired input with Eigen `isZero`,
that is, every coefficient within `1e-12` of zero, which holds in particular for the exact
zero vector.  When the test holds, the contact-force block of every leg in the returned
targets is that leg's force in the weight-compensating input computed from the contact flags
the schedule reports at `t` and the orientation of the interpolated desired state.  When it
does not hold, the contact-force blocks are the desired input's own forces and the result
does not depend on the schedule or the compensation. -/
theorem getParameters_contact_force_sentinel [LinearOrderedField K] {n : Nat}
    (c : MotionTrackingCost K n) (t : K) (desiredTrajectory : CostDesiredTrajectories K) :
    (isZero (desiredTrajectory.getDesiredInput t) = true ↔
        ∀ x ∈ desiredTrajectory.getDesiredInput t, |x| ≤ 1 / 1000000000000) ∧
      ((∀ x ∈ desiredTrajectory.getDesiredInput t, x = 0) →
        isZero (desiredTrajectory.getDesiredInput t) = true) ∧
      (isZero (desiredTrajectory.getDesiredInput t) = true →
        ∀ leg : Fin n, contactForceBlock (getParameters c t desiredTrajectory) leg.val =
          (segment3 (c.weightCompensatingInputs (c.getContactFlags t)
            (c.access.getOrientation (c.access.getComPose
              (desiredTrajectory.getDesiredState t)))) (3 * leg.val)).toList) ∧
      (isZero (desiredTrajectory.getDesiredInput t) = false →
        (∀ leg : Fin n, contactForceBlock (getParameters c t desiredTrajectory) leg.val =
          (segment3 (desiredTrajectory.getDesiredInput t) (3 * leg.val)).toList) ∧
        ∀ (flags : K → Fin n → Bool) (compensation : (Fin n → Bool) → Vec3 K → List K),
          getParameters { c with getContactFlags := flags,
                                 weightCompensatingInputs := compensation } t
            desiredTrajectory = getParameters c t desiredTrajectory) := by
  refine ⟨isZero_iff _, isZero_of_all_zero _, ?_, ?_⟩
  · intro hz leg
    rw [contactForceBlock_getParameters]
    unfold referenceInput
    simp only [hz, if_true]
  · intro hz
    constructor
    · intro leg
      rw [contactForceBlock_getParameters]
      unfold referenceInput
      simp only [hz, Bool.false_eq_true, if_false]
    · intro flags compensation
      unfold getParameters referenceInput
      simp only [hz, Bool.false_eq_true, if_false]

/-- Witness of C8 (amended): an exactly zero desired input on the one-legged sample model
in stance yields the compensating force. -/
theorem getParameters_contact_force_sentinel_witness :
    isZero ((sampleTrajectory ([0, 0, 0, 0, 0, 0] : List ℚ)).getDesiredInput 0) = true ∧
      contactForceBlock (getParameters (sampleCost (fun w => w) true) (0 : ℚ)
        (sampleTrajectory [0, 0, 0, 0, 0, 0])) (0 : Fin 1).val =
        (segment3 ((sampleCost (fun w => w) true).weightCompensatingInputs
          ((sampleCost (fun w => w) true).getContactFlags (0 : ℚ))
          ((sampleCost (fun w => w) true).access.getOrientation
            ((sampleCost (fun w => w) true).access.getComPose
              ((sampleTrajectory ([0, 0, 0, 0, 0, 0] : List ℚ)).getDesiredState 0))))
          (3 * (0 : Fin 1).val)).toList :=
  ⟨isZero_of_all_zero _ (by simp [sampleTrajectory]),
    (getParameters_contact_force_sentinel (sampleCost (fun w => w) true) (0 : ℚ)
      (sampleTrajectory [0, 0, 0, 0, 0, 0])).2.2.1
      (isZero_of_all_zero _ (by simp [sampleTrajectory])) 0⟩

end CostTheorems





end switched_model

/-! ## Theorems: gait built by the mode-sequence handlers -/

namespace switched_model

/-- A strictly increasing list of at least two switching times starting at or after zero
splits into its first time, the times in between and its last time, with everything in
between strictly between the first and the last. -/
theorem switchingTimes_split (times : List ℚ) (hsorted : times.Pairwise (fun a b => a < b))
    (hlen : 2 ≤ times.length) :
    ∃ (first : ℚ) (between : List ℚ) (last : ℚ),
      times = first :: (between ++ [last]) ∧ first < last ∧
        (∀ x ∈ between, first < x ∧ x < last) ∧
        between.Pairwise (fun a b => a < b) := by
  cases times with
  | nil => simp at hlen
  | cons first rest =>
    have hne : rest ≠ [] := by
      intro h; subst h; simp at hlen
    have hrest : rest = rest.dropLast ++ [rest.getLast hne] :=
      (List.dropLast_append_getLast hne).symm
    refine ⟨first, rest.dropLast, rest.getLast hne, by rw [← hrest], ?_, ?_, ?_⟩
    · exact (List.pairwise_cons.mp hsorted).1 _ (List.getLast_mem hne)
    · intro x hx
      have hxrest : x ∈ rest := List.mem_of_mem_dropLast hx
      refine ⟨(List.pairwise_cons.mp hsorted).1 x hxrest, ?_⟩
      have hp : (rest.dropLast ++ [rest.getLast hne]).Pairwise (fun a b => a < b) := by
        rw [← hrest]; exact (List.pairwise_cons.mp hsorted).2
      exact (List.pairwise_append.mp hp).2.2 x hx _ (List.mem_singleton_self _)
    · have hp : (rest.dropLast ++ [rest.getLast hne]).Pairwise (fun a b => a < b) := by
        rw [← hrest]; exact (List.pairwise_cons.mp hsorted).2
      exact (List.pairwise_append.mp hp).1

/-- The gait built from a template split as first time, times in between, last time. -/
theorem gaitOfTemplate_split (first last : ℚ) (between : List ℚ) (modes : List Nat) :
    gaitOfTemplate ⟨first :: (between ++ [last]), modes⟩ =
      { duration := last, eventPhases := between.map (fun eventTime => eventTime / last),
        modeSequence := modes } := by
  simp [gaitOfTemplate, List.getLastD]

/-- The gait built from a well-formed template: duration, event phases index by index,
mode sequence and the gait invariant. -/
theorem gaitOfTemplate_shape (tpl : ModeSequenceTemplate)
    (hsorted : tpl.switchingTimes.Pairwise (fun a b => a < b))
    (hfirst : 0 ≤ tpl.switchingTimes.headD 0)
    (hmodes : 1 ≤ tpl.modeSequence.length)
    (hlen : tpl.switchingTimes.length = tpl.modeSequence.length + 1) :
    (gaitOfTemplate tpl).duration = tpl.switchingTimes.getLastD 0 ∧
      0 < (gaitOfTemplate tpl).duration ∧
      (gaitOfTemplate tpl).eventPhases.length + 1 = tpl.modeSequence.length ∧
      (∀ i, i < (gaitOfTemplate tpl).eventPhases.length →
        (gaitOfTemplate tpl).eventPhases.getD i 0 =
          tpl.switchingTimes.getD (i + 1) 0 / tpl.switchingTimes.getLastD 0) ∧
      (gaitOfTemplate tpl).modeSequence = tpl.modeSequence ∧
      (gaitOfTemplate tpl).WellFormed := by
  obtain ⟨times, modes⟩ := tpl
  simp only at hsorted hfirst hmodes hlen
  obtain ⟨first, between, last, rfl, hfl, hbetween, hpair⟩ :=
    switchingTimes_split times hsorted (by omega)
  have h0 : 0 ≤ first := by simpa using hfirst
  have hlast : 0 < last := lt_of_le_of_lt h0 hfl
  have hcount : between.length + 1 = modes.length := by simp at hlen; omega
  have hlastD : (first :: (between ++ [last])).getLastD 0 = last := by
    simp [List.getLastD]
  rw [gaitOfTemplate_split]
  refine ⟨?_, hlast, ?_, ?_, rfl, ⟨hlast, ?_, ?_, ?_⟩⟩
  · simp only [hlastD]
  · simpa using hcount
  · intro i hi
    simp only [List.length_map] at hi
    simp only [hlastD]
    rw [List.getD_eq_getElem _ _ (by simpa using hi)]
    rw [List.getD_eq_getElem _ _ (by simp; omega)]
    simp [List.getElem_append_left, hi]
  · refine List.Pairwise.map _ ?_ hpair
    intro a b hab
    exact div_lt_div_of_pos_right hab hlast
  · intro p hp
    obtain ⟨x, hx, rfl⟩ := List.mem_map.mp hp
    exact ⟨div_pos (lt_of_le_of_lt h0 (hbetween x hx).1) hlast,
      (div_lt_one hlast).mpr (hbetween x hx).2⟩
  · simp only [List.length_map]
    omega

/-- C11 (the gait a mode-sequence handler builds is well formed): for a template with
switching times `0 <= s_0 < s_1 < .. < s_n`, `n >= 1`, and `n` modes, the gait has duration
`s_n > 0`, its event phases are `s_1 / s_n, .., s_(n-1) / s_n`, strictly increasing and
strictly inside (0, 1), and its mode sequence is the template's, one longer than the event
phases; this gait is the one both mode-sequence handlers hand to the schedule. -/
theorem gaitOfTemplate_wellFormed (tpl : ModeSequenceTemplate)
    (hsorted : tpl.switchingTimes.Pairwise (fun a b => a < b))
    (hfirst : 0 ≤ tpl.switchingTimes.headD 0)
    (hmodes : 1 ≤ tpl.modeSequence.length)
    (hlen : tpl.switchingTimes.length = tpl.modeSequence.length + 1) :
    (gaitOfTemplate tpl).duration = tpl.switchingTimes.getLastD 0 ∧
      0 < (gaitOfTemplate tpl).duration ∧
      (gaitOfTemplate tpl).eventPhases.length + 1 = tpl.modeSequence.length ∧
      (∀ i, i < (gaitOfTemplate tpl).eventPhases.length →
        (gaitOfTemplate tpl).eventPhases.getD i 0 =
          tpl.switchingTimes.getD (i + 1) 0 / tpl.switchingTimes.getLastD 0) ∧
      (gaitOfTemplate tpl).modeSequence = tpl.modeSequence ∧
      (gaitOfTemplate tpl).WellFormed ∧
      (∀ (r : GaitReceiver (List ScheduleCall)) (args : SolverArgs) (log : List ScheduleCall),
        (preSolverRun (mpcModeSequenceCallback recordingOps r tpl) args log).2 =
            ⟨log ++ [ScheduleCall.setGaitAfterTime (gaitOfTemplate tpl) args.finalTime], none⟩ ∧
          (preSolverRun (mpcModeScheduledGaitCallback recordingOps r tpl) args log).2 =
            ⟨log ++ [ScheduleCall.setGaitAtTime (gaitOfTemplate tpl)
              (tpl.switchingTimes.headD 0)], none⟩) := by
  obtain ⟨h1, h2, h3, h4, h5, h6⟩ := gaitOfTemplate_shape tpl hsorted hfirst hmodes hlen
  exact ⟨h1, h2, h3, h4, h5, h6, fun _ _ _ => ⟨rfl, rfl⟩⟩

/-- Witness of C11: the template with switching times 0 < 1/2 < 3/4 < 2 and three modes. -/
theorem gaitOfTemplate_wellFormed_witness :
    sampleTemplate.switchingTimes.Pairwise (fun a b => a < b) ∧
      (gaitOfTemplate sampleTemplate).WellFormed ∧
      (gaitOfTemplate sampleTemplate).eventPhases.length + 1 =
        sampleTemplate.modeSequence.length ∧
      (gaitOfTemplate sampleTemplate).eventPhases = [1 / 4, 3 / 8] :=
  have hsorted : sampleTemplate.switchingTimes.Pairwise (fun a b => a < b) := by
    simp only [sampleTemplate, List.pairwise_cons, List.mem_cons, List.mem_singleton,
      List.not_mem_nil, forall_eq_or_imp, forall_eq, List.Pairwise.nil]
    norm_num
  have h := gaitOfTemplate_wellFormed sampleTemplate hsorted (by simp [sampleTemplate])
    (by simp [sampleTemplate]) (by simp [sampleTemplate])
  ⟨hsorted, h.2.2.2.2.2.1, h.2.2.1, by
    simp only [gaitOfTemplate, sampleTemplate, List.tail_cons, List.dropLast, List.map_cons,
      List.map_nil, List.getLastD]
    norm_num⟩

end switched_model

/-! ## Theorems: pre-computation request flags -/

namespace ocs2

/-- A bitwise or of two naturals is zero exactly when both are. -/
theorem lor_eq_zero_iff (x y : Nat) : x ||| y = 0 ↔ x = 0 ∧ y = 0 := by
  constructor
  · intro h
    constructor
    · apply Nat.eq_of_testBit_eq
      intro i
      have := congrArg (fun n => n.testBit i) h
      simp only [Nat.testBit_or, Nat.zero_testBit, Bool.or_eq_false_iff] at this
      simpa using this.1
    · apply Nat.eq_of_testBit_eq
      intro i
      have := congrArg (fun n => n.testBit i) h
      simp only [Nat.testBit_or, Nat.zero_testBit, Bool.or_eq_false_iff] at this
      simpa using this.2
  · rintro ⟨rfl, rfl⟩
    rfl

/-- Bitwise and distributes over bitwise or from the right. -/
theorem land_lor_distrib_right (x y z : Nat) : (x ||| y) &&& z = (x &&& z) ||| (y &&& z) := by
  apply Nat.eq_of_testBit_eq
  intro i
  simp only [Nat.testBit_and, Nat.testBit_or, Bool.and_or_distrib_right]

/-- Testing an or-ed request against `c` succeeds exactly when one of its two parts does. -/
theorem operatorAnd_operatorOr (a b c : Request) :
    operatorAnd (operatorOr a b) c = (operatorAnd a c || operatorAnd b c) := by
  unfold operatorAnd operatorOr
  simp only [land_lor_distrib_right]
  rw [Bool.eq_iff_iff]
  simp only [bne_iff_ne, ne_eq, Bool.or_eq_true, lor_eq_zero_iff]
  tauto

/-- Two enumerators share a bit exactly when they are the same enumerator. -/
theorem operatorAnd_flags (f g : Request) (hf : f ∈ Request.flags) (hg : g ∈ Request.flags) :
    operatorAnd f g = true ↔ f = g := by
  simp only [Request.flags, List.mem_cons, List.mem_singleton, List.not_mem_nil,
    or_false] at hf hg
  rcases hf with rfl | rfl | rfl | rfl | rfl <;> rcases hg with rfl | rfl | rfl | rfl | rfl <;>
    decide

/-- A combined request tests true for a flag exactly when the flag was or-ed into it. -/
theorem operatorAnd_combine (g : Request) (hg : g ∈ Request.flags) :
    ∀ (more : List Request) (first : Request), first ∈ Request.flags →
      (∀ f ∈ more, f ∈ Request.flags) →
      (operatorAnd (Request.combine first more) g = true ↔ g = first ∨ g ∈ more) := by
  have hstep : ∀ (more : List Request) (acc : Request),
      (∀ f ∈ more, f ∈ Request.flags) →
      (operatorAnd (more.foldl operatorOr acc) g = true ↔
        operatorAnd acc g = true ∨ g ∈ more) := by
    intro more
    induction more with
    | nil => intro acc _; simp
    | cons f fs ih =>
      intro acc hfs
      have hf : f ∈ Request.flags := hfs f (List.mem_cons_self _ _)
      rw [List.foldl_cons, ih (operatorOr acc f) (fun x hx => hfs x (List.mem_cons_of_mem _ hx)),
        operatorAnd_operatorOr, Bool.or_eq_true, operatorAnd_flags f g hf hg, List.mem_cons,
        or_assoc]
      constructor
      · rintro (h | h | h)
        · exact Or.inl h
        · exact Or.inr (Or.inl h.symm)
        · exact Or.inr (Or.inr h)
      · rintro (h | h | h)
        · exact Or.inl h
        · exact Or.inr (Or.inl h.symm)
        · exact Or.inr (Or.inr h)
  intro more first hfirst hmore
  unfold Request.combine
  rw [hstep more first hmore, operatorAnd_flags first g hfirst hg]
  constructor
  · rintro (h | h)
    · exact Or.inl h.symm
    · exact Or.inr h
  · rintro (h | h)
    · exact Or.inl h.symm
    · exact Or.inr h

/-- C12 (request flags form a set algebra): for all requests `a`, `b`, `c`, `(a | b) & c` is
true exactly when `a & c` or `b & c` is; for two enumerators `f & g` is true exactly when
`f = g`; hence a request or-ed together from enumerators tests true for precisely the
enumerators that were or-ed into it. -/
theorem request_flags_set_algebra :
    (∀ a b c : Request,
        operatorAnd (operatorOr a b) c = true ↔
          (operatorAnd a c = true ∨ operatorAnd b c = true)) ∧
      (∀ f ∈ Request.flags, ∀ g ∈ Request.flags, (operatorAnd f g = true ↔ f = g)) ∧
      (∀ first ∈ Request.flags, ∀ more : List Request, (∀ f ∈ more, f ∈ Request.flags) →
        ∀ g ∈ Request.flags,
          (operatorAnd (Request.combine first more) g = true ↔ g = first ∨ g ∈ more)) := by
  refine ⟨?_, ?_, ?_⟩
  · intro a b c
    rw [operatorAnd_operatorOr, Bool.or_eq_true]
  · intro f hf g hg
    exact operatorAnd_flags f g hf hg
  · intro first hfirst more hmore g hg
    exact operatorAnd_combine g hg more first hfirst hmore

/-- Witness of C12: the request `Cost | SoftConstraint | Dynamics` tests true for
`SoftConstraint` and false for `Constraint`. -/
theorem request_flags_set_algebra_witness :
    (operatorAnd (Request.combine Request.Cost [Request.SoftConstraint, Request.Dynamics])
        Request.SoftConstraint = true ↔
        Request.SoftConstraint = Request.Cost ∨
          Request.SoftConstraint ∈ [Request.SoftConstraint, Request.Dynamics]) ∧
      (operatorAnd (Request.combine Request.Cost [Request.SoftConstraint, Request.Dynamics])
        Request.Constraint = true ↔
        Request.Constraint = Request.Cost ∨
          Request.Constraint ∈ [Request.SoftConstraint, Request.Dynamics]) :=
  ⟨request_flags_set_algebra.2.2 Request.Cost (by decide)
      [Request.SoftConstraint, Request.Dynamics] (by decide) Request.SoftConstraint (by decide),
    request_flags_set_algebra.2.2 Request.Cost (by decide)
      [Request.SoftConstraint, Request.Dynamics] (by decide) Request.Constraint (by decide)⟩

end ocs2
